import Mathlib

set_option maxRecDepth 40000

/-!
Verification development for the chunked PostGIS export pipeline implemented in
`table-to-geobuf.ts`.  The repository ships two near-duplicate scripts in that
file: a geobuf-per-chunk variant (`tableToGeobufChunks`, with a `queryPostgres`
helper that pipes psql output through `xxd -p -r`) and the active
geojson-per-chunk variant (`tableToGeojsonChunks` / `tableToGeojsonChunksOgr2ogr`
followed by `mergeGeojson` and `geojsonToGeobuf`).  The definitions below are a
shallow embedding of those functions: pure computations (the chunk-offset loop,
string building for SQL statements and file names, the properties filter, the
hex decoding pipe) are translated directly; the effectful pipeline is modelled
as explicit state passing over a list-of-paths filesystem together with a list
of emitted log lines, with the success/failure of each external process
invocation supplied as an input (a fault scenario), since the script's only
reaction to a failure is its `catch` block: log and `process.exit(1)`.
-/

namespace PostgisGeojson

/-- Model of the export `while` loop shared by `tableToGeobufChunks`
(lines 79-105), `tableToGeojsonChunks` (lines 202-233) and
`tableToGeojsonChunksOgr2ogr` (lines 256-280):

```
let offset = 0;
while (true) {
  if (offset > count) break;
  ...emit chunk at offset...
  offset += chunkSize;
}
```

The first argument is fuel bounding the number of loop iterations; the loop in
the source has no such bound, so the faithfulness of the fuel-free wrapper
`chunkOffsets` is established by `c6_loop_termination`, which shows that for
any `chunkSize ≥ 1` the result is the same for every sufficiently large fuel
(the loop terminates; for `chunkSize = 0` the source loop never terminates and
no claim addresses it). -/
def chunkOffsetsAux : Nat → Nat → Nat → Nat → List Nat
  | 0, _, _, _ => []
  | fuel + 1, count, chunkSize, offset =>
    if offset > count then []
    else offset :: chunkOffsetsAux fuel count chunkSize (offset + chunkSize)

/-- The list of chunk offsets the export loop emits, in emission order.
`count + 1` iterations always suffice when `chunkSize ≥ 1`. -/
def chunkOffsets (count chunkSize : Nat) : List Nat :=
  chunkOffsetsAux (count + 1) count chunkSize 0

/-- Bool test that `needle` occurs as a contiguous run inside `hay`. -/
def hasSub (needle : List Char) : List Char → Bool
  | [] => needle.isEmpty
  | c :: rest => needle.isPrefixOf (c :: rest) || hasSub needle rest

/-- String-level substring occurrence test, used to state where the built SQL
statements place their `ORDER BY`. -/
def containsSub (needle hay : String) : Bool :=
  hasSub needle.data hay.data

/-- The whitespace characters relevant to the strings this script handles,
as stripped by JS `String.prototype.trim`. -/
def isJsSpace (c : Char) : Bool :=
  c = ' ' || c = '\n' || c = '\t' || c = '\r'

def trimChars (l : List Char) : List Char :=
  ((l.dropWhile isJsSpace).reverse.dropWhile isJsSpace).reverse

/-- Model of JS `s.trim()` (both ends stripped of whitespace). -/
def jsTrim (s : String) : String := ⟨trimChars s.data⟩

/-- Model of JS `s.split(sep)[0]` for a non-empty separator: the part of `s`
before the first occurrence of `sep` (the whole of `s` when `sep` does not
occur).  The scripts use it as `filePath.split(".geojson")[0]` (lines 197, 251,
295, 314) and `filePath.split(".gbf")[0]` (line 63). -/
def jsSplitFirstAux (sep : List Char) : List Char → List Char
  | [] => []
  | c :: rest =>
    if sep.isPrefixOf (c :: rest) then [] else c :: jsSplitFirstAux sep rest

def jsSplitHead (s sep : String) : String := ⟨jsSplitFirstAux sep.data s.data⟩

/-- Model of JS `s.split('\n')` (line 76), a single-character separator. -/
def splitOnNl : List Char → List (List Char)
  | [] => [[]]
  | c :: rest =>
    if c = '\n' then [] :: splitOnNl rest
    else
      match splitOnNl rest with
      | [] => [[c]]
      | h :: t => (c :: h) :: t

/-- Lines 73-77 (geobuf script): the column names parsed from the stdout of the
column-listing statement: `columns.stdout.trim().split('\n').map(p => p.trim())`. -/
def parseColumns (stdoutStr : String) : List String :=
  (splitOnNl (trimChars stdoutStr.data)).map (fun l => ⟨trimChars l⟩)

/-- Line 78 (geobuf script): the properties list computed once, before the
export loop: `.filter(property => ![idColumn, geomColumn].includes(property))`. -/
def computeProperties (stdoutStr idColumn geomColumn : String) : List String :=
  (parseColumns stdoutStr).filter (fun p => !(p = idColumn || p = geomColumn))

/-- Models the SQL expression `to_jsonb(properties) - '<geomColumn>'` built at
line 218 (`tableToGeojsonChunks`), where `properties` is a whole row of the
table (`SELECT *`): the keys of the feature's `properties` object are the
table's columns with the geometry key removed — and only that key. -/
def geojsonFeaturePropertyKeys (tableColumns : List String) (geomColumn : String) :
    List String :=
  tableColumns.filter (fun c => !(c = geomColumn))

/-- The property set as the spec words it (for comparison with the code-derived
`geojsonFeaturePropertyKeys`): every column of the table except the identifier
column and the geometry column. -/
def claimedPropertyKeys (tableColumns : List String) (idColumn geomColumn : String) :
    List String :=
  tableColumns.filter (fun c => !(c = idColumn || c = geomColumn))

/-- Lines 198-200 / 64-66: the row-count statement text. -/
def countQuery (tableName : String) : String :=
  "\n      SELECT count(*) FROM " ++ tableName ++ "\n    "

/-- Lines 68-72 (geobuf script): the column-listing statement text. -/
def columnsQuery (tableName : String) : String :=
  "\n      SELECT column_name\n      FROM information_schema.columns\n      WHERE table_name = \x27" ++ tableName ++ "\x27;\n    "

/-- Lines 210-223 (`tableToGeojsonChunks` statement): the text preceding the
bounding subquery, up to and including `WHERE <id> IN (` and the indentation of
the subquery's first token. -/
def geojsonQueryPre (tableName geomColumn idColumn : String) : String :=
  "\n        SELECT jsonb_build_object(\n          \x27type\x27, \x27FeatureCollection\x27,\n          \x27features\x27, jsonb_agg(features.feature)\n        )\n        FROM (\n          SELECT jsonb_build_object(\n            \x27type\x27, \x27Feature\x27,\n            \x27geometry\x27, ST_AsGeoJSON(ST_Transform(" ++ geomColumn ++ ", 4326))::jsonb,\n            \x27properties\x27, to_jsonb(properties) - \x27" ++ geomColumn ++ "\x27\n          ) AS feature\n          FROM (\n            SELECT *\n            FROM " ++ tableName ++ "\n            WHERE " ++ idColumn ++ " IN (\n              "

/-- Lines 224-227: the bounding subquery of `tableToGeojsonChunks` — the part
carrying `ORDER BY`, `LIMIT` and `OFFSET`. -/
def geojsonBoundingSub (tableName idColumn : String) (chunkSize offset : Nat) :
    String :=
  "SELECT " ++ idColumn ++ "\n              FROM " ++ tableName ++ "\n              ORDER BY " ++ idColumn ++ "\n              LIMIT " ++ toString chunkSize ++ " OFFSET " ++ toString offset

/-- Lines 228-231: the text following the bounding subquery. -/
def geojsonQueryPost : String :=
  "\n            )\n          ) AS properties\n        ) AS features;\n      "

/-- Lines 209-231: the whole per-chunk statement of `tableToGeojsonChunks`. -/
def geojsonChunkQuery (tableName geomColumn idColumn : String)
    (chunkSize offset : Nat) : String :=
  geojsonQueryPre tableName geomColumn idColumn
    ++ geojsonBoundingSub tableName idColumn chunkSize offset
    ++ geojsonQueryPost

/-- Lines 267-270 (`tableToGeojsonChunksOgr2ogr`): the `-sql` argument's text
preceding the bounding subquery. -/
def ogrSqlPre (tableName idColumn : String) : String :=
  "\n          SELECT *\n          FROM " ++ tableName ++ "\n          WHERE " ++ idColumn ++ " IN (\n            "

/-- Lines 271-274: the bounding subquery of the ogr2ogr `-sql` statement. -/
def ogrBoundingSub (tableName idColumn : String) (chunkSize offset : Nat) : String :=
  "SELECT " ++ idColumn ++ "\n            FROM " ++ tableName ++ "\n            ORDER BY " ++ idColumn ++ "\n            LIMIT " ++ toString chunkSize ++ " OFFSET " ++ toString offset

/-- Lines 275-276: the `-sql` text following the bounding subquery. -/
def ogrSqlPost : String := "\n          )\n        "

/-- Lines 267-276: the whole `-sql` statement passed to ogr2ogr. -/
def ogrSqlQuery (tableName idColumn : String) (chunkSize offset : Nat) : String :=
  ogrSqlPre tableName idColumn
    ++ ogrBoundingSub tableName idColumn chunkSize offset
    ++ ogrSqlPost

/-- Line 91 (geobuf script): the interpolated properties fragment
`${properties.length > 0 ? ', ' + properties.join(', ') : ''}`. -/
def geobufPropsPart (properties : List String) : String :=
  if properties.length > 0 then ", " ++ String.intercalate ", " properties else ""

/-- Lines 86-90 (geobuf script): statement text before the properties fragment. -/
def geobufQueryPreA (geomColumn idColumn : String) : String :=
  "\n        SELECT encode(ST_AsGeobuf(features, \x27" ++ geomColumn ++ "\x27), \x27hex\x27)\n        FROM (\n          SELECT\n            ST_Transform(" ++ geomColumn ++ ", 4326) as " ++ geomColumn ++ ",\n            " ++ idColumn ++ "\n            "

/-- Lines 92-95: statement text between the properties fragment and the
bounding subquery. -/
def geobufQueryPreB (tableName idColumn : String) : String :=
  "\n          FROM (\n            SELECT *\n            FROM " ++ tableName ++ "\n            WHERE " ++ idColumn ++ " IN (\n              "

/-- Lines 96-99: the bounding subquery of the geobuf per-chunk statement. -/
def geobufBoundingSub (tableName idColumn : String) (chunkSize offset : Nat) :
    String :=
  "SELECT " ++ idColumn ++ "\n              FROM " ++ tableName ++ "\n              ORDER BY " ++ idColumn ++ "\n              LIMIT " ++ toString chunkSize ++ " OFFSET " ++ toString offset

/-- Lines 100-102: statement text after the bounding subquery. -/
def geobufQueryPost : String :=
  "\n            )\n          ) AS sq\n        ) AS features;\n      "

/-- Lines 85-103: the whole per-chunk statement of `tableToGeobufChunks`.  Its
`properties` argument is the list computed once at lines 73-78, so every chunk
of a run embeds the same properties fragment. -/
def geobufChunkQuery (tableName idColumn geomColumn : String)
    (properties : List String) (chunkSize offset : Nat) : String :=
  geobufQueryPreA geomColumn idColumn
    ++ geobufPropsPart properties
    ++ geobufQueryPreB tableName idColumn
    ++ geobufBoundingSub tableName idColumn chunkSize offset
    ++ geobufQueryPost

/-- Hex digit value accepted by `xxd -r -p` (either case); any other character
is not a hex digit and is skipped by reverse plain-hexdump mode. -/
def hexVal (c : Char) : Option Nat :=
  if '0' ≤ c && c ≤ '9' then some (c.toNat - 48)
  else if 'a' ≤ c && c ≤ 'f' then some (c.toNat - 87)
  else if 'A' ≤ c && c ≤ 'F' then some (c.toNat - 55)
  else none

/-- Model of `xxd -p -r` (line 42, geobuf script): pair up the hex digits of
the input, skipping non-hex characters (whitespace, newlines), and emit one raw
byte per pair. -/
def xxdRevAux : Option Nat → List Char → List Nat
  | _, [] => []
  | pending, c :: rest =>
    match hexVal c with
    | none => xxdRevAux pending rest
    | some v =>
      match pending with
      | none => xxdRevAux (some v) rest
      | some hi => (hi * 16 + v) :: xxdRevAux none rest

/-- Line 42 (geobuf script): the bytes the helper writes to the chunk file are
the psql stdout piped through `xxd -p -r`:
`psql ... -c ${query} | xxd -p -r > ${filePath}`. -/
def queryPostgresFileBytes (stdoutStr : String) : List Nat :=
  xxdRevAux none stdoutStr.data

/-- The lowercase hex digit character for a value below 16. -/
def hexDigitChar (n : Nat) : Char :=
  if n < 10 then Char.ofNat (48 + n) else Char.ofNat (87 + n)

/-- Model of PostgreSQL `encode(bytea, 'hex')` (line 86): two lowercase hex
digits per byte, high digit first; this is the text psql hands to the pipe. -/
def pgEncodeHex : List Nat → List Char
  | [] => []
  | b :: bs => hexDigitChar (b / 16) :: hexDigitChar (b % 16) :: pgEncodeHex bs

def pgEncodeHexStr (bs : List Nat) : String := ⟨pgEncodeHex bs⟩

/-- Path basename: the part after the last '/', the component `find -name`
matches its pattern against. -/
def baseNameOf (p : String) : String :=
  ⟨(p.data.reverse.takeWhile (fun c => !(c = '/'))).reverse⟩

/-- fnmatch of the single-star pattern `pre*suf` against a name, as used for
`${baseFilePath}_*.geojson`: the star matches any (possibly empty) run of
characters. -/
def globMatch (pre suf name : String) : Bool :=
  pre.data.isPrefixOf name.data && suf.data.isSuffixOf name.data
    && decide (pre.data.length + suf.data.length ≤ name.data.length)

/-- Lines 300-302: `find . -name ${baseFilePath}_*.geojson -delete` over a
filesystem modelled as a list of paths (cwd-relative, subdirectories separated
by slashes): every entry whose basename matches the glob is removed, whatever
directory it sits in and whether or not this run created it. -/
def findDelete (fs : List String) (base : String) : List String :=
  fs.filter (fun p => !(globMatch (base ++ "_") ".geojson" (baseNameOf p)))

/-- The observable steps of `mergeGeojson` (lines 290-309), in order.  The
`checkOutputExists` step is the verification the specification calls for; the
constructor exists so that its absence from the emitted sequence is a statable
fact. -/
inductive MergeAction where
  | runMergeTool : String → String → MergeAction
  | deleteByPattern : String → MergeAction
  | checkOutputExists : String → MergeAction
  | exitWith : Nat → MergeAction

def isCheckAction : MergeAction → Bool
  | MergeAction.checkOutputExists _ => true
  | _ => false

def isDeleteAction : MergeAction → Bool
  | MergeAction.deleteByPattern _ => true
  | _ => false

/-- Lines 293-308: `try { ogrmerge.py ...; find ... -delete } catch { log;
process.exit(1) }`, with the merge tool's success supplied as input.  On
success both commands run in order; on failure control jumps to the catch
block and the process exits with status 1 before any deletion is attempted. -/
def mergeGeojsonActions (filePath : String) (mergeOk : Bool) : List MergeAction :=
  let baseFilePath := jsSplitHead filePath ".geojson"
  let chunksPattern := baseFilePath ++ "_*.geojson"
  if mergeOk then
    [MergeAction.runMergeTool filePath chunksPattern,
      MergeAction.deleteByPattern chunksPattern]
  else
    [MergeAction.runMergeTool filePath chunksPattern, MergeAction.exitWith 1]

/-- Filesystem effect of one file-producing command: the shell redirection or
tool output truncates-or-creates the named file. -/
def writeFile (fs : List String) (f : String) : List String :=
  (fs.filter (fun p => !(p = f))) ++ [f]

/-- Filesystem and exit-status semantics of `mergeGeojson` (lines 290-309): on
merge success the merged file is (over)written and then every chunk-pattern
match is deleted (status 0 = run continues); on merge failure the filesystem
is left untouched and the process exits with status 1. -/
def mergeGeojsonRun (fs : List String) (filePath : String) (mergeOk : Bool) :
    List String × Nat :=
  if mergeOk then
    (findDelete (writeFile fs filePath) (jsSplitHead filePath ".geojson"), 0)
  else (fs, 1)

/-- A fault scenario for one pipeline run: whether the row-count statement
succeeds, which chunk export (if any, counted from the first chunk processed)
fails, and whether the merge and conversion tools succeed. -/
structure Faults where
  countOk : Bool
  failAfter : Option Nat
  mergeOk : Bool
  convertOk : Bool

structure ChunkRunOut where
  fs : List String
  writes : List String
  log : List String
  ok : Bool

/-- Lines 207/261: the chunk file name `${baseFilePath}_${offset}.geojson`. -/
def chunkFileName (base : String) (offset : Nat) : String :=
  base ++ "_" ++ toString offset ++ ".geojson"

/-- The body of the ogr2ogr export loop (lines 257-280) over the offsets it
visits: each iteration removes any stale part file (`rm -rf`), logs
`Processing <offset>`, and invokes ogr2ogr, which (re)creates the part file.
`failAfter = some n` makes the ogr2ogr invocation of the n-th remaining chunk
fail after its (partial) output file exists — the surrounding catch then logs
the stage tag and `process.exit(1)` runs, so the loop body never runs again. -/
def runChunksAux (base : String) : List Nat → Option Nat → List String → ChunkRunOut
  | [], _, fs => ⟨fs, [], [], true⟩
  | off :: rest, failAfter, fs =>
    let part := chunkFileName base off
    let fs1 := writeFile fs part
    match failAfter with
    | some 0 =>
      ⟨fs1, [part], ["Processing " ++ toString off,
        "[tableToGeojsonChunksOgr2ogr] Error"], false⟩
    | some (n + 1) =>
      let r := runChunksAux base rest (some n) fs1
      ⟨r.fs, part :: r.writes, ("Processing " ++ toString off) :: r.log, r.ok⟩
    | none =>
      let r := runChunksAux base rest none fs1
      ⟨r.fs, part :: r.writes, ("Processing " ++ toString off) :: r.log, r.ok⟩

structure PipelineResult where
  files : List String
  writes : List String
  log : List String
  exitCode : Nat
  mergerInvoked : Bool
  converterInvoked : Bool

/-- Line 333: the destination path of the run. -/
def mainFilePath : String := "layer.geojson"

/-- Lines 197/251/295/314: `filePath.split(".geojson")[0]` for the run's path. -/
def mainBase : String := jsSplitHead mainFilePath ".geojson"

/-- Lines 314-315: the converter's output path `${baseFilePath}.gbf`. -/
def mainGbfPath : String := mainBase ++ ".gbf"

/-- Lines 329-337: the whole run — count the rows, export chunk files with
`tableToGeojsonChunksOgr2ogr`, merge with `mergeGeojson`, convert with
`geojsonToGeobuf` — under a fault scenario, over a starting filesystem.
Every failure path is the corresponding catch block: log lines tagged with the
failing function (for the count statement, the `console.time` label that
carries the statement text) followed by `process.exit(1)`; stages after a
failed one are never reached.  On full success the script falls off the end
and the process exits with status 0. -/
def runPipeline (count chunkSize : Nat) (f : Faults) (fs0 : List String) :
    PipelineResult :=
  if f.countOk = false then
    { files := fs0, writes := [],
      log := ["[queryPostgres] Executed query: " ++ countQuery "table",
        "[queryPostgres] Error"],
      exitCode := 1, mergerInvoked := false, converterInvoked := false }
  else
    let r := runChunksAux mainBase (chunkOffsets count chunkSize) f.failAfter fs0
    if r.ok = false then
      { files := r.fs, writes := r.writes, log := r.log,
        exitCode := 1, mergerInvoked := false, converterInvoked := false }
    else if f.mergeOk = false then
      { files := r.fs, writes := r.writes,
        log := r.log ++ ["[mergeGeojson] Merged chunks to " ++ mainFilePath,
          "[mergeGeojson] Error"],
        exitCode := 1, mergerInvoked := true, converterInvoked := false }
    else
      let fs2 := (mergeGeojsonRun r.fs mainFilePath true).1
      if f.convertOk = false then
        { files := fs2, writes := r.writes ++ [mainFilePath],
          log := r.log ++ ["[geojsonToGeobuf] Converted " ++ mainFilePath
            ++ " to " ++ mainGbfPath, "[geojsonToGeobuf] Error"],
          exitCode := 1, mergerInvoked := true, converterInvoked := true }
      else
        { files := writeFile fs2 mainGbfPath,
          writes := r.writes ++ [mainFilePath, mainGbfPath],
          log := r.log, exitCode := 0, mergerInvoked := true,
          converterInvoked := true }

theorem chunkOffsetsAux_stop (fuel count chunkSize offset : Nat)
    (h : count < offset) : chunkOffsetsAux fuel count chunkSize offset = [] := by
  cases fuel with
  | zero => rfl
  | succ f => rw [chunkOffsetsAux, if_pos (by omega)]

theorem chunkOffsetsAux_eq (chunkSize : Nat) (hC : 1 ≤ chunkSize) :
    ∀ fuel count offset, (count - offset) / chunkSize + 1 ≤ fuel → offset ≤ count →
      chunkOffsetsAux fuel count chunkSize offset
        = (List.range ((count - offset) / chunkSize + 1)).map
            (fun k => offset + k * chunkSize)
  | 0, count, offset, hf, ho => absurd hf (Nat.not_succ_le_zero _)
  | fuel + 1, count, offset, hf, ho => by
    rw [chunkOffsetsAux, if_neg (by omega)]
    by_cases hnext : count < offset + chunkSize
    · have hdiv : (count - offset) / chunkSize = 0 := Nat.div_eq_of_lt (by omega)
      rw [chunkOffsetsAux_stop fuel count chunkSize _ hnext, hdiv]
      simp [List.range_succ]
    · have hle : offset + chunkSize ≤ count := by omega
      have hsub : (count - offset) / chunkSize
          = (count - (offset + chunkSize)) / chunkSize + 1 := by
        rw [← Nat.sub_sub]
        exact Nat.div_eq_sub_div (by omega) (by omega)
      have hih := chunkOffsetsAux_eq chunkSize hC fuel count (offset + chunkSize)
        (by rw [hsub] at hf; exact Nat.le_of_succ_le_succ hf) hle
      rw [hih, hsub]
      conv_rhs => rw [List.range_succ_eq_map]
      simp only [List.map_cons, List.map_map, Nat.zero_mul, Nat.add_zero]
      congr 1
      refine List.map_congr_left ?_
      intro a _
      simp only [Function.comp_apply, Nat.succ_mul, Nat.succ_eq_add_one]
      ring

theorem chunkOffsets_eq (count chunkSize : Nat) (hC : 1 ≤ chunkSize) :
    chunkOffsets count chunkSize
      = (List.range (count / chunkSize + 1)).map (fun k => k * chunkSize) := by
  have h := chunkOffsetsAux_eq chunkSize hC (count + 1) count 0
    (by rw [Nat.sub_zero]; exact Nat.succ_le_succ (Nat.div_le_self count chunkSize))
    (Nat.zero_le _)
  rw [chunkOffsets, h]
  simp

theorem chunkOffsets_mem (count chunkSize : Nat) (hC : 1 ≤ chunkSize) (x : Nat) :
    x ∈ chunkOffsets count chunkSize ↔ ∃ k, k ≤ count / chunkSize ∧ x = k * chunkSize := by
  rw [chunkOffsets_eq count chunkSize hC]
  simp only [List.mem_map, List.mem_range, Nat.lt_succ_iff]
  constructor
  · rintro ⟨k, hk, rfl⟩
    exact ⟨k, hk, rfl⟩
  · rintro ⟨k, hk, rfl⟩
    exact ⟨k, hk, rfl⟩

theorem chunkOffsets_le (count chunkSize : Nat) (hC : 1 ≤ chunkSize) :
    ∀ x ∈ chunkOffsets count chunkSize, x ≤ count := by
  intro x hx
  obtain ⟨k, hk, rfl⟩ := (chunkOffsets_mem count chunkSize hC x).1 hx
  calc k * chunkSize ≤ (count / chunkSize) * chunkSize :=
        Nat.mul_le_mul_right chunkSize hk
    _ ≤ count := Nat.div_mul_le_self count chunkSize

/-- C1: for a table with R rows and chunk size C ≥ 1 the exporter's loop emits
exactly the offsets {0, C, 2C, ..., ⌊R/C⌋·C}; when C divides R the offset R
itself is emitted (final empty chunk), no offset exceeds R, and in particular
for R = 10, C = 4 the offsets are {0, 4, 8} with no chunk at offset 12. -/
theorem c1_chunk_offset_coverage (R C : Nat) (hC : 1 ≤ C) :
    (∀ x, x ∈ chunkOffsets R C ↔ ∃ k, k ≤ R / C ∧ x = k * C)
      ∧ (C ∣ R → R ∈ chunkOffsets R C)
      ∧ (∀ x ∈ chunkOffsets R C, x ≤ R)
      ∧ chunkOffsets 10 4 = [0, 4, 8]
      ∧ 12 ∉ chunkOffsets 10 4 := by
  refine ⟨chunkOffsets_mem R C hC, ?_, chunkOffsets_le R C hC, by decide, by decide⟩
  intro hdvd
  exact (chunkOffsets_mem R C hC R).2
    ⟨R / C, le_refl _, (Nat.div_mul_cancel hdvd).symm⟩

theorem c1_chunk_offset_coverage_witness :
    1 ≤ 4 ∧
    ((∀ x, x ∈ chunkOffsets 10 4 ↔ ∃ k, k ≤ 10 / 4 ∧ x = k * 4)
      ∧ (4 ∣ 10 → 10 ∈ chunkOffsets 10 4)
      ∧ (∀ x ∈ chunkOffsets 10 4, x ≤ 10)
      ∧ chunkOffsets 10 4 = [0, 4, 8]
      ∧ 12 ∉ chunkOffsets 10 4) :=
  ⟨by decide, c1_chunk_offset_coverage 10 4 (by decide)⟩

/-- C6: for every row count and every chunk size ≥ 1 the export loop
terminates after exactly ⌊count/chunkSize⌋ + 1 body iterations — its result is
fuel-independent beyond that bound and it emits that many offsets — the offset
increases by chunkSize each iteration, every emitted offset is ≤ count (the
loop stops at the first offset strictly greater than count), and the body runs
at least once even when count = 0. -/
theorem c6_loop_termination (count C : Nat) (hC : 1 ≤ C) :
    (chunkOffsets count C).length = count / C + 1
      ∧ 1 ≤ (chunkOffsets count C).length
      ∧ (∀ fuel, count / C + 1 ≤ fuel →
          chunkOffsetsAux fuel count C 0 = chunkOffsets count C)
      ∧ (∀ i, i + 1 < (chunkOffsets count C).length →
          (chunkOffsets count C).getD (i + 1) 0 = (chunkOffsets count C).getD i 0 + C)
      ∧ (∀ x ∈ chunkOffsets count C, x ≤ count) := by
  have hlen : (chunkOffsets count C).length = count / C + 1 := by
    rw [chunkOffsets_eq count C hC]
    simp
  refine ⟨hlen, by rw [hlen]; exact Nat.succ_le_succ (Nat.zero_le _), ?_, ?_,
    chunkOffsets_le count C hC⟩
  · intro fuel hfuel
    rw [chunkOffsetsAux_eq C hC fuel count 0
        (by rw [Nat.sub_zero]; exact hfuel) (Nat.zero_le _),
      chunkOffsets_eq count C hC]
    simp
  · intro i hi
    rw [hlen] at hi
    have hget : ∀ j, j < count / C + 1 → (chunkOffsets count C).getD j 0 = j * C := by
      intro j hj
      rw [chunkOffsets_eq count C hC]
      rw [List.getD_eq_getElem _ _ (by simpa using hj)]
      simp
    rw [hget i (Nat.lt_of_succ_lt hi), hget (i + 1) hi, Nat.succ_mul]

theorem c6_loop_termination_witness :
    1 ≤ 3 ∧
    ((chunkOffsets 0 3).length = 0 / 3 + 1
      ∧ 1 ≤ (chunkOffsets 0 3).length
      ∧ (∀ fuel, 0 / 3 + 1 ≤ fuel →
          chunkOffsetsAux fuel 0 3 0 = chunkOffsets 0 3)
      ∧ (∀ i, i + 1 < (chunkOffsets 0 3).length →
          (chunkOffsets 0 3).getD (i + 1) 0 = (chunkOffsets 0 3).getD i 0 + 3)
      ∧ (∀ x ∈ chunkOffsets 0 3, x ≤ 0)) :=
  ⟨by decide, c6_loop_termination 0 3 (by decide)⟩

theorem isPrefixOf_append_of_isPrefixOf (n A B : List Char)
    (h : n.isPrefixOf A = true) : n.isPrefixOf (A ++ B) = true := by
  induction n generalizing A with
  | nil => simp [List.isPrefixOf]
  | cons c cs ih =>
    cases A with
    | nil => simp [List.isPrefixOf] at h
    | cons a as =>
      rw [List.cons_append]
      simp only [List.isPrefixOf, Bool.and_eq_true] at h ⊢
      exact ⟨h.1, ih as h.2⟩

theorem hasSub_nil (l : List Char) : hasSub [] l = true := by
  induction l with
  | nil => rfl
  | cons c rest ih => simp [hasSub, List.isPrefixOf]

theorem hasSub_append_left (n A B : List Char) (h : hasSub n A = true) :
    hasSub n (A ++ B) = true := by
  induction A with
  | nil =>
    have hn : n = [] := by
      simpa [hasSub, List.isEmpty_iff] using h
    subst hn
    exact hasSub_nil B
  | cons a as ih =>
    rw [List.cons_append]
    simp only [hasSub, Bool.or_eq_true] at h ⊢
    rcases h with h | h
    · refine Or.inl ?_
      have := isPrefixOf_append_of_isPrefixOf n (a :: as) B h
      simpa using this
    · exact Or.inr (ih h)

theorem hasSub_append_right (n A B : List Char) (h : hasSub n B = true) :
    hasSub n (A ++ B) = true := by
  induction A with
  | nil => simpa using h
  | cons a as ih =>
    rw [List.cons_append]
    simp only [hasSub, Bool.or_eq_true]
    exact Or.inr ih

theorem containsSub_append_left (n A B : String) (h : containsSub n A = true) :
    containsSub n (A ++ B) = true := by
  rw [containsSub, String.data_append]
  exact hasSub_append_left _ _ _ h

theorem containsSub_append_right (n A B : String) (h : containsSub n B = true) :
    containsSub n (A ++ B) = true := by
  rw [containsSub, String.data_append]
  exact hasSub_append_right _ _ _ h

/-- C5: in all three export strategies, instantiated at the run's default
configuration (table `table`, identifier `id`, geometry `geom`, lines 329-332),
the per-chunk statement decomposes as outer text around the bounding subquery,
the bounding subquery (the part carrying LIMIT and OFFSET) contains the
explicit `ORDER BY id`, and no outer fragment of the statement contains any
`ORDER BY` (for the geobuf variant, provided the interpolated properties
fragment itself brings none). -/
theorem c5_order_by_in_bounding_subquery (chunkSize offset : Nat)
    (properties : List String)
    (hp : containsSub "ORDER BY" (geobufPropsPart properties) = false) :
    (geojsonChunkQuery "table" "geom" "id" chunkSize offset
        = geojsonQueryPre "table" "geom" "id"
            ++ geojsonBoundingSub "table" "id" chunkSize offset ++ geojsonQueryPost
      ∧ containsSub "ORDER BY id"
          (geojsonBoundingSub "table" "id" chunkSize offset) = true
      ∧ containsSub "ORDER BY" (geojsonQueryPre "table" "geom" "id") = false
      ∧ containsSub "ORDER BY" geojsonQueryPost = false)
    ∧ (ogrSqlQuery "table" "id" chunkSize offset
        = ogrSqlPre "table" "id"
            ++ ogrBoundingSub "table" "id" chunkSize offset ++ ogrSqlPost
      ∧ containsSub "ORDER BY id" (ogrBoundingSub "table" "id" chunkSize offset) = true
      ∧ containsSub "ORDER BY" (ogrSqlPre "table" "id") = false
      ∧ containsSub "ORDER BY" ogrSqlPost = false)
    ∧ (geobufChunkQuery "table" "id" "geom" properties chunkSize offset
        = geobufQueryPreA "geom" "id" ++ geobufPropsPart properties
            ++ geobufQueryPreB "table" "id"
            ++ geobufBoundingSub "table" "id" chunkSize offset ++ geobufQueryPost
      ∧ containsSub "ORDER BY id"
          (geobufBoundingSub "table" "id" chunkSize offset) = true
      ∧ containsSub "ORDER BY" (geobufQueryPreA "geom" "id") = false
      ∧ containsSub "ORDER BY" (geobufPropsPart properties) = false
      ∧ containsSub "ORDER BY" (geobufQueryPreB "table" "id") = false
      ∧ containsSub "ORDER BY" geobufQueryPost = false) := by
  refine ⟨⟨rfl, ?_, by decide, by decide⟩, ⟨rfl, ?_, by decide, by decide⟩,
    ⟨rfl, ?_, by decide, hp, by decide, by decide⟩⟩
  · show containsSub "ORDER BY id"
      ("SELECT id\n              FROM table\n              ORDER BY id\n              LIMIT "
        ++ toString chunkSize ++ " OFFSET " ++ toString offset) = true
    exact containsSub_append_left _ _ _
      (containsSub_append_left _ _ _ (containsSub_append_left _ _ _ (by decide)))
  · show containsSub "ORDER BY id"
      ("SELECT id\n            FROM table\n            ORDER BY id\n            LIMIT "
        ++ toString chunkSize ++ " OFFSET " ++ toString offset) = true
    exact containsSub_append_left _ _ _
      (containsSub_append_left _ _ _ (containsSub_append_left _ _ _ (by decide)))
  · show containsSub "ORDER BY id"
      ("SELECT id\n              FROM table\n              ORDER BY id\n              LIMIT "
        ++ toString chunkSize ++ " OFFSET " ++ toString offset) = true
    exact containsSub_append_left _ _ _
      (containsSub_append_left _ _ _ (containsSub_append_left _ _ _ (by decide)))

/-- C2 counterexample: for a table with columns id, geom, name the per-feature
properties object built by `tableToGeojsonChunks` (`to_jsonb(properties) -
'geom'`) keeps the identifier column, so the attached property set is not the
claimed "every column except identifier and geometry". -/
theorem c2_counterexample :
    geojsonFeaturePropertyKeys ["id", "geom", "name"] "geom"
        ≠ claimedPropertyKeys ["id", "geom", "name"] "id" "geom"
      ∧ "id" ∈ geojsonFeaturePropertyKeys ["id", "geom", "name"] "geom" := by
  decide

/-- C2 amended: the geojson strategies attach as properties exactly the table's
columns minus the geometry column only — the identifier column is included —
while the geobuf variant's separately computed properties list does exclude
both identifier and geometry, is computed once per run from the column query's
output, and the very same list is embedded in every chunk's statement (only the
bounding subquery's OFFSET varies across chunks). -/
theorem c2_property_set (stdoutStr idColumn geomColumn : String)
    (tableColumns properties : List String) (chunkSize : Nat) :
    (∀ p, p ∈ computeProperties stdoutStr idColumn geomColumn ↔
        p ∈ parseColumns stdoutStr ∧ p ≠ idColumn ∧ p ≠ geomColumn)
      ∧ (∀ c, c ∈ geojsonFeaturePropertyKeys tableColumns geomColumn ↔
          c ∈ tableColumns ∧ c ≠ geomColumn)
      ∧ (idColumn ∈ tableColumns → idColumn ≠ geomColumn →
          idColumn ∈ geojsonFeaturePropertyKeys tableColumns geomColumn)
      ∧ (∀ offset,
          geobufChunkQuery "table" idColumn geomColumn properties chunkSize offset
            = geobufQueryPreA geomColumn idColumn ++ geobufPropsPart properties
                ++ geobufQueryPreB "table" idColumn
                ++ geobufBoundingSub "table" idColumn chunkSize offset
                ++ geobufQueryPost) := by
  have hkeys : ∀ c, c ∈ geojsonFeaturePropertyKeys tableColumns geomColumn ↔
      c ∈ tableColumns ∧ c ≠ geomColumn := by
    intro c
    simp [geojsonFeaturePropertyKeys, List.mem_filter]
  refine ⟨?_, hkeys, ?_, fun offset => rfl⟩
  · intro p
    simp [computeProperties, List.mem_filter, not_or, and_assoc]
  · intro h1 h2
    exact (hkeys idColumn).2 ⟨h1, h2⟩

theorem hexVal_hexDigitChar : ∀ n, n < 16 → hexVal (hexDigitChar n) = some n := by
  decide

theorem xxdRevAux_encode (bs : List Nat) (h : ∀ b ∈ bs, b < 256) (rest : List Char) :
    xxdRevAux none (pgEncodeHex bs ++ rest) = bs ++ xxdRevAux none rest := by
  induction bs with
  | nil => simp [pgEncodeHex]
  | cons b tl ih =>
    have hb : b < 256 := h b (List.mem_cons_self _ _)
    have h1 : hexVal (hexDigitChar (b / 16)) = some (b / 16) :=
      hexVal_hexDigitChar _ (by omega)
    have h2 : hexVal (hexDigitChar (b % 16)) = some (b % 16) :=
      hexVal_hexDigitChar _ (by omega)
    show xxdRevAux none
        (hexDigitChar (b / 16) :: hexDigitChar (b % 16) :: (pgEncodeHex tl ++ rest))
      = (b :: tl) ++ xxdRevAux none rest
    simp only [xxdRevAux, h1, h2]
    rw [ih (fun x hx => h x (List.mem_cons_of_mem _ hx))]
    simp only [List.cons_append]
    congr 1
    omega

/-- C8: when the per-chunk format is the binary geobuf, the helper's pipe
through `xxd -p -r` makes the chunk file hold the raw bytes themselves, both
for the bare hex text and for the newline-terminated form psql emits — not the
hex text encoding of those bytes. -/
theorem c8_raw_bytes_written (bs : List Nat) (h : ∀ b ∈ bs, b < 256) :
    queryPostgresFileBytes (pgEncodeHexStr bs) = bs
      ∧ queryPostgresFileBytes (pgEncodeHexStr bs ++ "\n") = bs := by
  have hnl : hexVal '\n' = none := rfl
  constructor
  · show xxdRevAux none (pgEncodeHexStr bs).data = bs
    have := xxdRevAux_encode bs h []
    simpa [pgEncodeHexStr, xxdRevAux] using this
  · show xxdRevAux none ((pgEncodeHexStr bs ++ "\n").data) = bs
    rw [String.data_append]
    have := xxdRevAux_encode bs h "\n".data
    simpa [pgEncodeHexStr, xxdRevAux, hnl] using this

theorem c8_raw_bytes_written_witness :
    (∀ b ∈ [0, 171, 255], b < 256)
      ∧ queryPostgresFileBytes (pgEncodeHexStr [0, 171, 255]) = [0, 171, 255]
      ∧ queryPostgresFileBytes (pgEncodeHexStr [0, 171, 255] ++ "\n") = [0, 171, 255] :=
  ⟨by decide, c8_raw_bytes_written [0, 171, 255] (by decide)⟩

theorem mem_writeFile_of_mem (fs : List String) (g f : String) (h : f ∈ fs) :
    f ∈ writeFile fs g := by
  by_cases hfg : f = g
  · subst hfg
    exact List.mem_append_right _ (List.mem_singleton_self _)
  · refine List.mem_append_left _ ?_
    rw [List.mem_filter]
    exact ⟨h, by simp [hfg]⟩

theorem mem_writeFile_self (fs : List String) (g : String) : g ∈ writeFile fs g :=
  List.mem_append_right _ (List.mem_singleton_self _)

theorem runChunksAux_mem (base : String) :
    ∀ (offs : List Nat) (fa : Option Nat) (fs : List String) (f : String),
      f ∈ fs → f ∈ (runChunksAux base offs fa fs).fs := by
  intro offs
  induction offs with
  | nil => intro fa fs f h; exact h
  | cons off rest ih =>
    intro fa fs f h
    cases fa with
    | none =>
      simpa [runChunksAux] using ih none _ f (mem_writeFile_of_mem _ _ _ h)
    | some n =>
      cases n with
      | zero => simpa [runChunksAux] using mem_writeFile_of_mem _ _ _ h
      | succ m =>
        simpa [runChunksAux] using ih (some m) _ f (mem_writeFile_of_mem _ _ _ h)

theorem runChunksAux_fail (base : String) :
    ∀ (offs : List Nat) (j : Nat) (fs : List String), j < offs.length →
      (runChunksAux base offs (some j) fs).ok = false
        ∧ ∀ i, i ≤ j →
            chunkFileName base (offs.getD i 0) ∈ (runChunksAux base offs (some j) fs).fs := by
  intro offs
  induction offs with
  | nil => intro j fs h; exact absurd h (by simp)
  | cons off rest ih =>
    intro j fs hj
    cases j with
    | zero =>
      refine ⟨by simp [runChunksAux], ?_⟩
      intro i hi
      have hz : i = 0 := Nat.le_zero.mp hi
      subst hz
      simpa [runChunksAux] using mem_writeFile_self fs (chunkFileName base off)
    | succ m =>
      have hm : m < rest.length := by simpa using hj
      obtain ⟨hok, hmem⟩ := ih m (writeFile fs (chunkFileName base off)) hm
      refine ⟨by simpa [runChunksAux] using hok, ?_⟩
      intro i hi
      cases i with
      | zero =>
        have h0 : chunkFileName base off ∈ writeFile fs (chunkFileName base off) :=
          mem_writeFile_self _ _
        simpa [runChunksAux] using
          runChunksAux_mem base rest (some m) _ _ h0
      | succ i2 =>
        have hle : i2 ≤ m := Nat.le_of_succ_le_succ hi
        simpa [runChunksAux] using hmem i2 hle

theorem runChunksAux_fail_log (base : String) :
    ∀ (offs : List Nat) (fa : Option Nat) (fs : List String),
      (runChunksAux base offs fa fs).ok = false →
      "[tableToGeojsonChunksOgr2ogr] Error" ∈ (runChunksAux base offs fa fs).log := by
  intro offs
  induction offs with
  | nil => intro fa fs h; exact absurd h (by simp [runChunksAux])
  | cons off rest ih =>
    intro fa fs h
    cases fa with
    | none =>
      simp only [runChunksAux] at h ⊢
      exact List.mem_cons_of_mem _ (ih none _ h)
    | some n =>
      cases n with
      | zero => simp [runChunksAux]
      | succ m =>
        simp only [runChunksAux] at h ⊢
        exact List.mem_cons_of_mem _ (ih (some m) _ h)

theorem runChunksAux_writes_sub (base : String) :
    ∀ (offs : List Nat) (fa : Option Nat) (fs : List String) (w : String),
      w ∈ (runChunksAux base offs fa fs).writes →
      ∃ off ∈ offs, w = chunkFileName base off := by
  intro offs
  induction offs with
  | nil => intro fa fs w h; exact absurd h (by simp [runChunksAux])
  | cons off rest ih =>
    intro fa fs w h
    cases fa with
    | none =>
      simp only [runChunksAux] at h
      rcases List.mem_cons.mp h with h | h
      · exact ⟨off, List.mem_cons_self _ _, h⟩
      · obtain ⟨o, ho, hw⟩ := ih none _ w h
        exact ⟨o, List.mem_cons_of_mem _ ho, hw⟩
    | some n =>
      cases n with
      | zero =>
        simp only [runChunksAux, List.mem_singleton] at h
        exact ⟨off, List.mem_cons_self _ _, h⟩
      | succ m =>
        simp only [runChunksAux] at h
        rcases List.mem_cons.mp h with h | h
        · exact ⟨off, List.mem_cons_self _ _, h⟩
        · obtain ⟨o, ho, hw⟩ := ih (some m) _ w h
          exact ⟨o, List.mem_cons_of_mem _ ho, hw⟩

/-- C3 counterexample: on a successful merge of the run's destination path the
emitted step sequence performs a deletion but contains no step verifying that
the merged output file exists — deletion is guarded only by the merge
command's exit status, not by an existence check. -/
theorem c3_counterexample :
    (mergeGeojsonActions "layer.geojson" true).any isCheckAction = false
      ∧ (mergeGeojsonActions "layer.geojson" true).any isDeleteAction = true := by
  decide

/-- C3 amended: chunk deletion happens only on the success path and only after
the merge command: after a successful merge no file matching the chunk naming
pattern remains; if the merge command fails the program exits with status 1
with the filesystem untouched; deletion occurs exactly when the merge command
succeeded, and no existence check of the merged output is ever performed. -/
theorem c3_merge_then_delete (fs : List String) (filePath : String) :
    (∀ p ∈ (mergeGeojsonRun fs filePath true).1,
        globMatch (jsSplitHead filePath ".geojson" ++ "_") ".geojson"
          (baseNameOf p) = false)
      ∧ mergeGeojsonRun fs filePath false = (fs, 1)
      ∧ (∀ ok, (mergeGeojsonActions filePath ok).any isDeleteAction = ok)
      ∧ (∀ ok, (mergeGeojsonActions filePath ok).any isCheckAction = false)
      ∧ mergeGeojsonActions filePath true
          = [MergeAction.runMergeTool filePath
              (jsSplitHead filePath ".geojson" ++ "_*.geojson"),
            MergeAction.deleteByPattern
              (jsSplitHead filePath ".geojson" ++ "_*.geojson")] := by
  refine ⟨?_, rfl, ?_, ?_, rfl⟩
  · intro p hp
    have hp2 : p ∈ findDelete (writeFile fs filePath)
        (jsSplitHead filePath ".geojson") := hp
    have hcond := (List.mem_filter.mp hp2).2
    simpa using hcond
  · intro ok
    cases ok <;> simp [mergeGeojsonActions, isDeleteAction]
  · intro ok
    cases ok <;> simp [mergeGeojsonActions, isCheckAction]

theorem c3_merge_then_delete_witness :
    (∀ p ∈ (mergeGeojsonRun ["layer_0.geojson", "d/layer_7.geojson"]
        "layer.geojson" true).1,
        globMatch (jsSplitHead "layer.geojson" ".geojson" ++ "_") ".geojson"
          (baseNameOf p) = false)
      ∧ mergeGeojsonRun ["layer_0.geojson", "d/layer_7.geojson"] "layer.geojson" false
          = (["layer_0.geojson", "d/layer_7.geojson"], 1)
      ∧ (∀ ok, (mergeGeojsonActions "layer.geojson" ok).any isDeleteAction = ok)
      ∧ (∀ ok, (mergeGeojsonActions "layer.geojson" ok).any isCheckAction = false)
      ∧ mergeGeojsonActions "layer.geojson" true
          = [MergeAction.runMergeTool "layer.geojson"
              (jsSplitHead "layer.geojson" ".geojson" ++ "_*.geojson"),
            MergeAction.deleteByPattern
              (jsSplitHead "layer.geojson" ".geojson" ++ "_*.geojson")] :=
  c3_merge_then_delete ["layer_0.geojson", "d/layer_7.geojson"] "layer.geojson"

/-- C10: the cleanup deletes exactly by basename pattern: a path survives iff
it was present and its basename does not match `<base>_*.geojson`.  Membership
in the exporter's actual write list plays no role, so files in subdirectories,
files from other runs, and offsets that are no multiple of the chunk size are
deleted alike — as the concrete filesystem in the second conjunct shows. -/
theorem c10_cleanup_by_name_pattern (fs : List String) (base : String) (p : String) :
    (p ∈ findDelete fs base ↔
        p ∈ fs ∧ globMatch (base ++ "_") ".geojson" (baseNameOf p) = false)
      ∧ findDelete ["layer_0.geojson", "sub/layer_7.geojson", "layer_stray.geojson",
          "other.geojson"] "layer" = ["other.geojson"] := by
  constructor
  · rw [findDelete, List.mem_filter]
    simp
  · decide

theorem c10_cleanup_by_name_pattern_witness :
    ("sub/layer_7.geojson" ∈ findDelete ["sub/layer_7.geojson"] "layer" ↔
        "sub/layer_7.geojson" ∈ ["sub/layer_7.geojson"]
          ∧ globMatch ("layer" ++ "_") ".geojson"
              (baseNameOf "sub/layer_7.geojson") = false)
      ∧ findDelete ["layer_0.geojson", "sub/layer_7.geojson", "layer_stray.geojson",
          "other.geojson"] "layer" = ["other.geojson"] :=
  c10_cleanup_by_name_pattern ["sub/layer_7.geojson"] "layer" "sub/layer_7.geojson"

/-- C4: if the ogr2ogr invocation of chunk k fails (k ≥ 2, chunks counted from
1), the run exits with status 1, the chunk files of chunks 1..k-1 and the
(partial) file of chunk k are present on disk, and neither the merger nor the
converter is ever invoked. -/
theorem c4_chunk_failure_aborts (count chunkSize k : Nat) (hC : 1 ≤ chunkSize)
    (hk2 : 2 ≤ k) (hk : k ≤ (chunkOffsets count chunkSize).length) :
    (runPipeline count chunkSize ⟨true, some (k - 1), true, true⟩ []).exitCode = 1
      ∧ (runPipeline count chunkSize ⟨true, some (k - 1), true, true⟩ []).mergerInvoked
          = false
      ∧ (runPipeline count chunkSize ⟨true, some (k - 1), true, true⟩ []).converterInvoked
          = false
      ∧ ∀ i, i < k →
          chunkFileName mainBase ((chunkOffsets count chunkSize).getD i 0)
            ∈ (runPipeline count chunkSize ⟨true, some (k - 1), true, true⟩ []).files := by
  obtain ⟨hok, hmem⟩ := runChunksAux_fail mainBase (chunkOffsets count chunkSize)
    (k - 1) [] (by omega)
  refine ⟨by simp [runPipeline, hok], by simp [runPipeline, hok],
    by simp [runPipeline, hok], ?_⟩
  intro i hi
  have hle : i ≤ k - 1 := by omega
  simpa [runPipeline, hok] using hmem i hle

theorem c4_chunk_failure_aborts_witness :
    (1 ≤ 4 ∧ 2 ≤ 2 ∧ 2 ≤ (chunkOffsets 10 4).length)
      ∧ ((runPipeline 10 4 ⟨true, some (2 - 1), true, true⟩ []).exitCode = 1
        ∧ (runPipeline 10 4 ⟨true, some (2 - 1), true, true⟩ []).mergerInvoked = false
        ∧ (runPipeline 10 4 ⟨true, some (2 - 1), true, true⟩ []).converterInvoked = false
        ∧ ∀ i, i < 2 →
            chunkFileName mainBase ((chunkOffsets 10 4).getD i 0)
              ∈ (runPipeline 10 4 ⟨true, some (2 - 1), true, true⟩ []).files) :=
  ⟨⟨by decide, by decide, by decide⟩,
    c4_chunk_failure_aborts 10 4 2 (by decide) (by decide) (by decide)⟩

/-- C7: the run exits with status 0 iff every stage (row count, every chunk
export, merge, conversion) succeeds, and with status 1 otherwise; each failure
writes a diagnostic line tagged with the failing stage (for the row-count
statement, a line carrying the statement text itself) before exiting; and no
stage runs after a failed one — the merger is invoked iff counting and all
chunk exports succeeded, the converter iff additionally the merge succeeded. -/
theorem c7_exit_status (count chunkSize : Nat) (f : Faults) (fs0 : List String) :
    ((runPipeline count chunkSize f fs0).exitCode = 0 ↔
        f.countOk = true
          ∧ (runChunksAux mainBase (chunkOffsets count chunkSize) f.failAfter fs0).ok
              = true
          ∧ f.mergeOk = true ∧ f.convertOk = true)
      ∧ ((runPipeline count chunkSize f fs0).exitCode = 0
          ∨ (runPipeline count chunkSize f fs0).exitCode = 1)
      ∧ (f.countOk = false →
          ("[queryPostgres] Executed query: " ++ countQuery "table")
              ∈ (runPipeline count chunkSize f fs0).log
            ∧ "[queryPostgres] Error" ∈ (runPipeline count chunkSize f fs0).log)
      ∧ (f.countOk = true →
          (runChunksAux mainBase (chunkOffsets count chunkSize) f.failAfter fs0).ok
              = false →
          "[tableToGeojsonChunksOgr2ogr] Error"
            ∈ (runPipeline count chunkSize f fs0).log)
      ∧ (f.countOk = true →
          (runChunksAux mainBase (chunkOffsets count chunkSize) f.failAfter fs0).ok
              = true →
          f.mergeOk = false →
          "[mergeGeojson] Error" ∈ (runPipeline count chunkSize f fs0).log)
      ∧ (f.countOk = true →
          (runChunksAux mainBase (chunkOffsets count chunkSize) f.failAfter fs0).ok
              = true →
          f.mergeOk = true → f.convertOk = false →
          "[geojsonToGeobuf] Error" ∈ (runPipeline count chunkSize f fs0).log)
      ∧ (runPipeline count chunkSize f fs0).mergerInvoked
          = (f.countOk
              && (runChunksAux mainBase (chunkOffsets count chunkSize) f.failAfter fs0).ok)
      ∧ (runPipeline count chunkSize f fs0).converterInvoked
          = (f.countOk
              && (runChunksAux mainBase (chunkOffsets count chunkSize) f.failAfter fs0).ok
              && f.mergeOk) := by
  refine ⟨?_, ?_, ?_, ?_, ?_, ?_, ?_, ?_⟩
  · cases hc : f.countOk with
    | false => simp [runPipeline, hc]
    | true =>
      cases hok : (runChunksAux mainBase (chunkOffsets count chunkSize) f.failAfter fs0).ok with
      | false => simp [runPipeline, hc, hok]
      | true =>
        cases hm : f.mergeOk with
        | false => simp [runPipeline, hc, hok, hm]
        | true =>
          cases hcv : f.convertOk with
          | false => simp [runPipeline, hc, hok, hm, hcv]
          | true => simp [runPipeline, hc, hok, hm, hcv]
  · cases hc : f.countOk with
    | false => simp [runPipeline, hc]
    | true =>
      cases hok : (runChunksAux mainBase (chunkOffsets count chunkSize) f.failAfter fs0).ok with
      | false => simp [runPipeline, hc, hok]
      | true =>
        cases hm : f.mergeOk with
        | false => simp [runPipeline, hc, hok, hm]
        | true =>
          cases hcv : f.convertOk with
          | false => simp [runPipeline, hc, hok, hm, hcv]
          | true => simp [runPipeline, hc, hok, hm, hcv]
  · intro hc
    simp [runPipeline, hc]
  · intro hc hok
    simpa [runPipeline, hc, hok] using
      runChunksAux_fail_log mainBase (chunkOffsets count chunkSize) f.failAfter fs0 hok
  · intro hc hok hm
    simp [runPipeline, hc, hok, hm]
  · intro hc hok hm hcv
    simp [runPipeline, hc, hok, hm, hcv]
  · cases hc : f.countOk with
    | false => simp [runPipeline, hc]
    | true =>
      cases hok : (runChunksAux mainBase (chunkOffsets count chunkSize) f.failAfter fs0).ok with
      | false => simp [runPipeline, hc, hok]
      | true =>
        cases hm : f.mergeOk with
        | false => simp [runPipeline, hc, hok, hm]
        | true =>
          cases hcv : f.convertOk with
          | false => simp [runPipeline, hc, hok, hm, hcv]
          | true => simp [runPipeline, hc, hok, hm, hcv]
  · cases hc : f.countOk with
    | false => simp [runPipeline, hc]
    | true =>
      cases hok : (runChunksAux mainBase (chunkOffsets count chunkSize) f.failAfter fs0).ok with
      | false => simp [runPipeline, hc, hok]
      | true =>
        cases hm : f.mergeOk with
        | false => simp [runPipeline, hc, hok, hm]
        | true =>
          cases hcv : f.convertOk with
          | false => simp [runPipeline, hc, hok, hm, hcv]
          | true => simp [runPipeline, hc, hok, hm, hcv]

theorem c7_exit_status_witness :
    ((runPipeline 2 1 ⟨true, none, true, true⟩ []).exitCode = 0 ↔
        (⟨true, none, true, true⟩ : Faults).countOk = true
          ∧ (runChunksAux mainBase (chunkOffsets 2 1)
              (⟨true, none, true, true⟩ : Faults).failAfter []).ok = true
          ∧ (⟨true, none, true, true⟩ : Faults).mergeOk = true
          ∧ (⟨true, none, true, true⟩ : Faults).convertOk = true)
      ∧ ((runPipeline 2 1 ⟨true, none, true, true⟩ []).exitCode = 0
          ∨ (runPipeline 2 1 ⟨true, none, true, true⟩ []).exitCode = 1)
      ∧ ((⟨true, none, true, true⟩ : Faults).countOk = false →
          ("[queryPostgres] Executed query: " ++ countQuery "table")
              ∈ (runPipeline 2 1 ⟨true, none, true, true⟩ []).log
            ∧ "[queryPostgres] Error" ∈ (runPipeline 2 1 ⟨true, none, true, true⟩ []).log)
      ∧ ((⟨true, none, true, true⟩ : Faults).countOk = true →
          (runChunksAux mainBase (chunkOffsets 2 1)
              (⟨true, none, true, true⟩ : Faults).failAfter []).ok = false →
          "[tableToGeojsonChunksOgr2ogr] Error"
            ∈ (runPipeline 2 1 ⟨true, none, true, true⟩ []).log)
      ∧ ((⟨true, none, true, true⟩ : Faults).countOk = true →
          (runChunksAux mainBase (chunkOffsets 2 1)
              (⟨true, none, true, true⟩ : Faults).failAfter []).ok = true →
          (⟨true, none, true, true⟩ : Faults).mergeOk = false →
          "[mergeGeojson] Error" ∈ (runPipeline 2 1 ⟨true, none, true, true⟩ []).log)
      ∧ ((⟨true, none, true, true⟩ : Faults).countOk = true →
          (runChunksAux mainBase (chunkOffsets 2 1)
              (⟨true, none, true, true⟩ : Faults).failAfter []).ok = true →
          (⟨true, none, true, true⟩ : Faults).mergeOk = true →
          (⟨true, none, true, true⟩ : Faults).convertOk = false →
          "[geojsonToGeobuf] Error" ∈ (runPipeline 2 1 ⟨true, none, true, true⟩ []).log)
      ∧ (runPipeline 2 1 ⟨true, none, true, true⟩ []).mergerInvoked
          = ((⟨true, none, true, true⟩ : Faults).countOk
              && (runChunksAux mainBase (chunkOffsets 2 1)
                  (⟨true, none, true, true⟩ : Faults).failAfter []).ok)
      ∧ (runPipeline 2 1 ⟨true, none, true, true⟩ []).converterInvoked
          = ((⟨true, none, true, true⟩ : Faults).countOk
              && (runChunksAux mainBase (chunkOffsets 2 1)
                  (⟨true, none, true, true⟩ : Faults).failAfter []).ok
              && (⟨true, none, true, true⟩ : Faults).mergeOk) :=
  c7_exit_status 2 1 ⟨true, none, true, true⟩ []

/-- C9: every file the pipeline writes follows the naming scheme derived from
the destination base path: a chunk file `<base>_<offset>.geojson` at one of
the emitted offsets, the merged file `<base>.geojson`, or the converted output
`<base>.gbf` — under every fault scenario, nothing else is ever written. -/
theorem c9_naming_scheme (count chunkSize : Nat) (f : Faults) (fs0 : List String)
    (w : String) (hw : w ∈ (runPipeline count chunkSize f fs0).writes) :
    (∃ off ∈ chunkOffsets count chunkSize, w = chunkFileName mainBase off)
      ∨ w = mainBase ++ ".geojson" ∨ w = mainBase ++ ".gbf" := by
  have hmerged : mainFilePath = mainBase ++ ".geojson" := by decide
  cases hc : f.countOk with
  | false => simp [runPipeline, hc] at hw
  | true =>
    cases hok : (runChunksAux mainBase (chunkOffsets count chunkSize) f.failAfter fs0).ok with
    | false =>
      simp only [runPipeline, hc, hok] at hw
      simp at hw
      exact Or.inl (runChunksAux_writes_sub mainBase _ f.failAfter fs0 w hw)
    | true =>
      cases hm : f.mergeOk with
      | false =>
        simp only [runPipeline, hc, hok, hm] at hw
        simp at hw
        exact Or.inl (runChunksAux_writes_sub mainBase _ f.failAfter fs0 w hw)
      | true =>
        cases hcv : f.convertOk with
        | false =>
          simp [runPipeline, hc, hok, hm, hcv] at hw
          rcases hw with hw | hw
          · exact Or.inl (runChunksAux_writes_sub mainBase _ f.failAfter fs0 w hw)
          · exact Or.inr (Or.inl (hw.trans hmerged))
        | true =>
          simp [runPipeline, hc, hok, hm, hcv] at hw
          rcases hw with hw | hw | hw
          · exact Or.inl (runChunksAux_writes_sub mainBase _ f.failAfter fs0 w hw)
          · exact Or.inr (Or.inl (hw.trans hmerged))
          · exact Or.inr (Or.inr hw)

theorem c9_naming_scheme_witness :
    ("layer_4.geojson" ∈ (runPipeline 5 2 ⟨true, none, true, true⟩ []).writes)
      ∧ ((∃ off ∈ chunkOffsets 5 2, "layer_4.geojson" = chunkFileName mainBase off)
        ∨ "layer_4.geojson" = mainBase ++ ".geojson"
        ∨ "layer_4.geojson" = mainBase ++ ".gbf") :=
  ⟨by decide,
    c9_naming_scheme 5 2 ⟨true, none, true, true⟩ [] "layer_4.geojson" (by decide)⟩

theorem c2_property_set_witness :
    (∀ p, p ∈ computeProperties " id\n geom\n name" "id" "geom" ↔
        p ∈ parseColumns " id\n geom\n name" ∧ p ≠ "id" ∧ p ≠ "geom")
      ∧ (∀ c, c ∈ geojsonFeaturePropertyKeys ["id", "geom", "name"] "geom" ↔
          c ∈ ["id", "geom", "name"] ∧ c ≠ "geom")
      ∧ ("id" ∈ ["id", "geom", "name"] → "id" ≠ "geom" →
          "id" ∈ geojsonFeaturePropertyKeys ["id", "geom", "name"] "geom")
      ∧ (∀ offset,
          geobufChunkQuery "table" "id" "geom" ["name"] 4 offset
            = geobufQueryPreA "geom" "id" ++ geobufPropsPart ["name"]
                ++ geobufQueryPreB "table" "id"
                ++ geobufBoundingSub "table" "id" 4 offset
                ++ geobufQueryPost) :=
  c2_property_set " id\n geom\n name" "id" "geom" ["id", "geom", "name"] ["name"] 4

theorem c5_order_by_in_bounding_subquery_witness :
    containsSub "ORDER BY" (geobufPropsPart ["name"]) = false
    ∧ ((geojsonChunkQuery "table" "geom" "id" 7 21
        = geojsonQueryPre "table" "geom" "id"
            ++ geojsonBoundingSub "table" "id" 7 21 ++ geojsonQueryPost
      ∧ containsSub "ORDER BY id" (geojsonBoundingSub "table" "id" 7 21) = true
      ∧ containsSub "ORDER BY" (geojsonQueryPre "table" "geom" "id") = false
      ∧ containsSub "ORDER BY" geojsonQueryPost = false)
    ∧ (ogrSqlQuery "table" "id" 7 21
        = ogrSqlPre "table" "id" ++ ogrBoundingSub "table" "id" 7 21 ++ ogrSqlPost
      ∧ containsSub "ORDER BY id" (ogrBoundingSub "table" "id" 7 21) = true
      ∧ containsSub "ORDER BY" (ogrSqlPre "table" "id") = false
      ∧ containsSub "ORDER BY" ogrSqlPost = false)
    ∧ (geobufChunkQuery "table" "id" "geom" ["name"] 7 21
        = geobufQueryPreA "geom" "id" ++ geobufPropsPart ["name"]
            ++ geobufQueryPreB "table" "id"
            ++ geobufBoundingSub "table" "id" 7 21 ++ geobufQueryPost
      ∧ containsSub "ORDER BY id" (geobufBoundingSub "table" "id" 7 21) = true
      ∧ containsSub "ORDER BY" (geobufQueryPreA "geom" "id") = false
      ∧ containsSub "ORDER BY" (geobufPropsPart ["name"]) = false
      ∧ containsSub "ORDER BY" (geobufQueryPreB "table" "id") = false
      ∧ containsSub "ORDER BY" geobufQueryPost = false)) :=
  ⟨by decide, c5_order_by_in_bounding_subquery 7 21 ["name"] (by decide)⟩

end PostgisGeojson
